import Mathlib

/-!
Verification of the Article Indexing & Caching Service of the blog repository
(`models/article_model.go`), as a shallow embedding in Lean 4.

Modelling conventions:
* `Article` mirrors the Go struct `models.Article` field by field. `time.Time`
  values are modelled as `Nat` timestamps; Go `uint` counters as `Nat` and the
  `int64` version stamp as `Int`, with every Go arithmetic step on them
  wrapped explicitly (`wrap64` for the 64-bit unsigned counters, `wrapI64`
  for 64-bit signed `int64`/`int` arithmetic) to preserve overflow semantics.
* The two external stores (the search engine and the key-value cache) are
  modelled as association lists from key to article (`DocMap`); the cache is
  keyed by the string `getCacheKey id = "article:" ++ id`, exactly as the code
  computes it, and stores the (de)serialization-roundtripped article snapshot.
* Fallible external calls are given Boolean outcome oracles (`indexOk`,
  `setCacheOk`, ...): `true` means the network call succeeds, `false` means it
  returns an error. A cache `Get` miss and a cache `Get` transport failure are
  observationally identical in the Go code (both yield a non-nil error that is
  treated as "not cached"), so both are modelled by `lookupA _ _ = none`.
* Every Go error-return path is an `ArticleError` constructor carrying the
  identity of the failing `fmt.Errorf` site.
-/

namespace BlogModel

/-- Embedded `models.Article` (article_model.go lines 20-37). Field order and
names follow the Go struct; `time.Time` is a `Nat` instant, `uint` is `Nat`,
`int64` is `Int`, with every arithmetic step on it wrapped by `wrapI64` /
`wrap64` below so Go overflow semantics are preserved (a faithful Go state
has `version` inside the `int64` range). -/
structure Article where
  id            : String
  createdAt     : Nat
  updatedAt     : Nat
  title         : String
  abstract      : String
  content       : String
  lookCount     : Nat
  commentCount  : Nat
  diggCount     : Nat
  collectsCount : Nat
  userId        : Nat
  userName      : String
  category      : String
  coverId       : Nat
  coverUrl      : String
  version       : Int
  deriving Repr, DecidableEq

/-- Constant `batchSize = 1000` (article_model.go line 42). -/
def batchSize : Nat := 1000

/-- A keyed document store (the engine index, or the cache), as an
association list; the most recently inserted binding for a key wins. -/
abbrev DocMap := List (String × Article)

/-- Key lookup in a `DocMap`. -/
def lookupA : DocMap → String → Option Article
  | [], _ => none
  | (k', a) :: rest, k => if k' = k then some a else lookupA rest k

/-- Upsert: models both `Es.Index`/`Es.Update` on the engine and
`cache.Set` on the cache (the newest write shadows older ones). -/
def insertA (m : DocMap) (k : String) (a : Article) : DocMap := (k, a) :: m

/-- Key removal: models a delete of the document/cache entry under `k`. -/
def removeA (m : DocMap) (k : String) : DocMap := m.filter (fun p => p.1 != k)

/-- The observable state of the two external stores. -/
structure SystemState where
  es    : DocMap
  cache : DocMap
  deriving Repr, DecidableEq

/-- Function `getCacheKey` (article_model.go lines 341-343): the Go code formats the key as article:id. -/
def getCacheKey (id : String) : String := "article:" ++ id

/-- One constructor per distinct error-returning `fmt.Errorf` site of the
Go file that the embedded operations can reach. -/
inductive ArticleError where
  /-- Message "检查文章是否存在失败" (ArticleExists / CreateArticle). -/
  | existsCheckFailed
  /-- Message "文章已存在" (CreateArticle line 163). -/
  | alreadyExists
  /-- Message "创建文章失败" (CreateArticle line 176). -/
  | createFailed
  /-- Message "更新文章失败" (UpdateArticle line 231). -/
  | updateFailed
  /-- A non-nil error from `setCache` (redis `Set`), returned verbatim by
  CreateArticle line 180 and UpdateArticle line 235. -/
  | cacheSetFailed
  /-- Message "获取文章失败" or "解析文章数据失败" (GetArticle). -/
  | getFailed
  /-- Message "批量删除文章失败" (DeleteArticles line 262, transport error). -/
  | bulkDeleteFailed
  /-- Message "批量删除文章时发生错误" (DeleteArticles line 266, on resp.Errors). -/
  | bulkDeleteErrors
  /-- Message "更新访问计数失败" (incrementLookCount line 433). -/
  | incrementFailed
  deriving Repr, DecidableEq

/-- Operation `ArticleExists` (article_model.go lines 399-416): cache first (`getCache`
succeeding means the article exists), then the engine `Exists` call, whose
transport outcome is the oracle `esReachable`. -/
def ArticleExists (esReachable : Bool) (st : SystemState) (id : String) :
    Except ArticleError Bool :=
  match lookupA st.cache (getCacheKey id) with
  | some _ => .ok true
  | none =>
    if esReachable then .ok (lookupA st.es id).isSome
    else .error .existsCheckFailed

/-- Operation `CreateArticle` (article_model.go lines 155-181). Returns the Go return
value, the resulting store state, and the (possibly mutated) article pointed
to by the pointer of the caller. `now` is the value of `time.Now()`. Note the
mutation of `CreatedAt`/`UpdatedAt`/`Version` happens only after the
existence check passes, and the result of the final `setCache` is returned
to the caller unchanged. -/
def CreateArticle (existsCheckOk indexOk setCacheOk : Bool) (now : Nat)
    (st : SystemState) (a : Article) :
    Except ArticleError Unit × SystemState × Article :=
  match ArticleExists existsCheckOk st a.id with
  | .error e => (.error e, st, a)
  | .ok true => (.error .alreadyExists, st, a)
  | .ok false =>
    let a1 := { a with createdAt := now, updatedAt := now, version := 1 }
    if indexOk then
      let st1 := { st with es := insertA st.es a1.id a1 }
      if setCacheOk then
        (.ok (), { st1 with cache := insertA st1.cache (getCacheKey a1.id) a1 }, a1)
      else (.error .cacheSetFailed, st1, a1)
    else (.error .createFailed, st, a1)

/-- Two-complement wrap-around of Go 64-bit signed integer arithmetic
(`int64`, and `int` on 64-bit platforms): reduce into the interval from
-9223372036854775808 (-2^63) to 9223372036854775807 (2^63 - 1).  Every Go
arithmetic operation on these types wraps by this rule. -/
def wrapI64 (n : Int) : Int :=
  (n + 9223372036854775808) % 18446744073709551616 - 9223372036854775808

/-- Operation `UpdateArticle` (article_model.go lines 218-236). The statement `article.Version++` and
the `UpdatedAt` refresh happen before the engine call (so they stick on the
article of the caller even if the engine call fails); on engine success the full
document is written and then the cache is overwritten, the `setCache` result
being returned to the caller unchanged.  `Version` is a Go `int64`, so the
increment wraps: the new version is `wrapI64 (version + 1)`. -/
def UpdateArticle (updateOk setCacheOk : Bool) (now : Nat)
    (st : SystemState) (a : Article) :
    Except ArticleError Unit × SystemState × Article :=
  let a1 := { a with version := wrapI64 (a.version + 1), updatedAt := now }
  if updateOk then
    let st1 := { st with es := insertA st.es a1.id a1 }
    if setCacheOk then
      (.ok (), { st1 with cache := insertA st1.cache (getCacheKey a1.id) a1 }, a1)
    else (.error .cacheSetFailed, st1, a1)
  else (.error .updateFailed, st, a1)

/-- Result of a `GetArticle` call: the Go return value, the resulting store
state, and whether the call spawned the detached `go s.incrementLookCount(id)`
goroutine (whose own effect is asynchronous and is NOT folded into `state`). -/
structure GetOutcome where
  result : Except ArticleError Article
  state  : SystemState
  lookCountIncrementSpawned : Bool

/-- Operation `GetArticle` (article_model.go lines 184-215): cache lookup first; on a
hit, return the cached article and spawn the detached view-count increment.
On a miss, fetch from the engine (absence is a wrapped error), then cache the
result only when `LookCount > 100`, a `setCache` failure (`setCacheOk =
false`) being logged as a warning and not propagated. -/
def GetArticle (setCacheOk : Bool) (st : SystemState) (id : String) : GetOutcome :=
  match lookupA st.cache (getCacheKey id) with
  | some a => ⟨.ok a, st, true⟩
  | none =>
    match lookupA st.es id with
    | none => ⟨.error .getFailed, st, false⟩
    | some result =>
      if result.lookCount > 100 then
        if setCacheOk then
          ⟨.ok result, { st with cache := insertA st.cache (getCacheKey id) result }, false⟩
        else ⟨.ok result, st, false⟩
      else ⟨.ok result, st, false⟩

/-- Word width of the Go `uint` counters (modular arithmetic bound). -/
def wrap64 (n : Nat) : Nat := n % 2 ^ 64

/-- The engine-side painless script `ctx._source.look_count++`
(article_model.go lines 424-426), as a document transformer: it increments
the `look_count` field of the stored source and touches nothing else. -/
def incScript (a : Article) : Article := { a with lookCount := wrap64 (a.lookCount + 1) }

/-- Operation `incrementLookCount` (article_model.go lines 419-446): runs the atomic
increment script through `Es.Update` (which fails on a missing document or on
transport failure, oracle `esOk`), then best-effort mirrors the increment
into the cache entry when one exists — `article.LookCount++` on the cached
value followed by `setCache`, whose failure is logged and swallowed. -/
def incrementLookCount (esOk setCacheOk : Bool) (st : SystemState) (id : String) :
    Except ArticleError Unit × SystemState :=
  if esOk then
    match lookupA st.es id with
    | none => (.error .incrementFailed, st)
    | some doc =>
      let st1 : SystemState := { st with es := insertA st.es id (incScript doc) }
      match lookupA st1.cache (getCacheKey id) with
      | none => (.ok (), st1)
      | some cached =>
        let cached1 := { cached with lookCount := wrap64 (cached.lookCount + 1) }
        if setCacheOk then
          (.ok (), { st1 with cache := insertA st1.cache (getCacheKey id) cached1 })
        else (.ok (), st1)
  else (.error .incrementFailed, st)

/-- Modelled from the spec: the `PageInfo` struct embedded in `SearchParams`
is declared outside the files available here; its shape is fixed by its uses
in `SearchArticles` and by the search request shape given in the spec:
`{ key?: string, page: int, page_size: int }`. Go `int` is modelled as `Int`. -/
structure PageInfo where
  key      : String
  page     : Int
  pageSize : Int
  deriving Repr, DecidableEq

/-- Struct `SearchParams` (article_model.go lines 385-390). -/
structure SearchParams where
  pageInfo  : PageInfo
  category  : String
  sortField : String
  sortOrder : String
  deriving Repr, DecidableEq

/-- The engine search request assembled by `SearchArticles` before `Do` runs:
the `must` clauses of the boolean query, the pagination window, and the optional
sort clause (the `field:order` string passed to `searchRequest.Sort`). -/
structure EsSearchRequest where
  multiMatchClause : Option (String × List String)
  termClause       : Option String
  fromOffset       : Int
  size             : Int
  sortClause       : Option String
  deriving Repr, DecidableEq

/-- The query-construction half of `SearchArticles` (article_model.go lines
289-318), which is pure: a multi-match clause over `title^3, abstract^2,
content` when `Key` is non-empty; a `category` term clause when `Category`
is non-empty; `from := (Page - 1) * PageSize` and `size := PageSize`; and,
only when `SortField` is non-empty, a sort of `SortField:asc` exactly when
`SortOrder == "asc"` and `SortField:desc` otherwise.  `Page` and `PageSize`
are Go `int` values (64-bit here), so both the subtraction and the
multiplication computing `from` wrap by `wrapI64`. -/
def buildSearchRequest (params : SearchParams) : EsSearchRequest :=
  let multiMatchClause :=
    if params.pageInfo.key ≠ "" then
      some (params.pageInfo.key, ["title^3", "abstract^2", "content"])
    else none
  let termClause := if params.category ≠ "" then some params.category else none
  let fromOffset := wrapI64 (wrapI64 (params.pageInfo.page - 1) * params.pageInfo.pageSize)
  let sortClause :=
    if params.sortField ≠ "" then
      some (params.sortField ++ ":" ++ (if params.sortOrder = "asc" then "asc" else "desc"))
    else none
  ⟨multiMatchClause, termClause, fromOffset, params.pageInfo.pageSize, sortClause⟩

/-- A `types.DeleteOperation` added to the bulk request via
`bulkRequest.DeleteOp` (article_model.go line 255). -/
structure DeleteOperation where
  id : String
  deriving Repr, DecidableEq

/-- The bulk request built for one batch (article_model.go lines 253-256):
one delete operation per identifier of the batch, in order. -/
def buildBulkRequest (batch : List String) : List DeleteOperation :=
  batch.map (fun id => ⟨id⟩)

/-- The batching loop of `DeleteArticles` (article_model.go lines 244-250):
`for i := 0; i < len(ids); i += batchSize { batch := ids[i:min(i+batchSize,len)] }`,
i.e. consecutive front-to-back chunks of at most `batchSize` identifiers. -/
def chunkBatches (ids : List String) : List (List String) :=
  if ids = [] then [] else ids.take batchSize :: chunkBatches (ids.drop batchSize)
termination_by ids.length
decreasing_by
  simp only [List.length_drop]
  cases ids with
  | nil => simp_all
  | cons x xs => simp [batchSize]; omega

/-- Outcome of the bulk call of one batch: a transport error from `Do`, a
response with the `Errors` flag set, or success. -/
inductive BulkOutcome where
  | transportError
  | respErrors
  | success
  deriving Repr, DecidableEq

/-- The goroutine body run for one batch (article_model.go lines 259-278):
on bulk failure return the error (the engine state of a failed batch is
modelled as unchanged); on success remove the documents of the batch from the
engine, then delete the cache entry of each id individually, a failing cache
delete (`cacheDelOk id = false`) being logged and skipped. -/
def runBatch (outcome : BulkOutcome) (cacheDelOk : String → Bool)
    (batch : List String) (st : SystemState) :
    Except ArticleError Unit × SystemState :=
  match outcome with
  | .transportError => (.error .bulkDeleteFailed, st)
  | .respErrors => (.error .bulkDeleteErrors, st)
  | .success =>
    let st1 : SystemState := { st with es := batch.foldl (fun m id => removeA m id) st.es }
    let st2 : SystemState :=
      { st1 with cache :=
          (batch.foldl
            (fun m id => if cacheDelOk id then removeA m (getCacheKey id) else m)
            st1.cache) }
    (.ok (), st2)

/-- All batch goroutines spawned under the shared errgroup, numbered from 0;
every spawned batch settles (a batch cancelled by the failure of a sibling settles
with its own `transportError` outcome), and `g.Wait` returns an error exactly
when some batch did. -/
def runBatches (outcome : Nat → BulkOutcome) (cacheDelOk : String → Bool) :
    Nat → List (List String) → SystemState → Except ArticleError Unit × SystemState
  | _, [], st => (.ok (), st)
  | i, b :: rest, st =>
    ((match (runBatch (outcome i) cacheDelOk b st).1 with
      | .error e => .error e
      | .ok _ =>
        (runBatches outcome cacheDelOk (i + 1) rest
          (runBatch (outcome i) cacheDelOk b st).2).1),
     (runBatches outcome cacheDelOk (i + 1) rest
       (runBatch (outcome i) cacheDelOk b st).2).2)

/-- Operation `DeleteArticles` (article_model.go lines 239-282): chunk the ids,
run every batch, return the verdict of `g.Wait` and the final store state. -/
def DeleteArticles (outcome : Nat → BulkOutcome) (cacheDelOk : String → Bool)
    (st : SystemState) (ids : List String) :
    Except ArticleError Unit × SystemState :=
  runBatches outcome cacheDelOk 0 (chunkBatches ids) st

/-! Basic facts about the association-list store model. -/

theorem lookupA_insertA_self (m : DocMap) (k : String) (a : Article) :
    lookupA (insertA m k a) k = some a := by
  simp [insertA, lookupA]

theorem lookupA_insertA_ne (m : DocMap) (k k2 : String) (a : Article) (h : k2 ≠ k) :
    lookupA (insertA m k a) k2 = lookupA m k2 := by
  simp [insertA, lookupA, Ne.symm h]

theorem lookupA_removeA (m : DocMap) (k k2 : String) :
    lookupA (removeA m k) k2 = if k2 = k then none else lookupA m k2 := by
  induction m with
  | nil => simp [removeA, lookupA]
  | cons p rest ih =>
    obtain ⟨k1, a1⟩ := p
    by_cases h1 : k1 = k <;> by_cases h2 : k2 = k <;> by_cases h3 : k1 = k2 <;>
      simp_all [removeA, lookupA, List.filter_cons, bne_iff_ne]

theorem lookupA_foldl_removeA_none :
    ∀ (batch : List String) (m : DocMap) (k : String), lookupA m k = none →
      lookupA (batch.foldl (fun m2 id => removeA m2 id) m) k = none := by
  intro batch
  induction batch with
  | nil => intro m k h; simpa using h
  | cons x xs ih =>
    intro m k h
    simp only [List.foldl_cons]
    apply ih
    rw [lookupA_removeA]
    split <;> simp [h]

theorem lookupA_foldl_removeA_mem :
    ∀ (batch : List String) (m : DocMap) (k : String), k ∈ batch →
      lookupA (batch.foldl (fun m2 id => removeA m2 id) m) k = none := by
  intro batch
  induction batch with
  | nil => intro m k h; cases h
  | cons x xs ih =>
    intro m k h
    simp only [List.foldl_cons]
    rcases List.mem_cons.mp h with h1 | h1
    · subst h1
      apply lookupA_foldl_removeA_none
      rw [lookupA_removeA]
      simp
    · exact ih _ _ h1

theorem lookupA_foldl_cacheDel_none (f : String → Bool) :
    ∀ (batch : List String) (m : DocMap) (k : String), lookupA m k = none →
      lookupA (batch.foldl
        (fun m2 id => if f id then removeA m2 (getCacheKey id) else m2) m) k = none := by
  intro batch
  induction batch with
  | nil => intro m k h; simpa using h
  | cons x xs ih =>
    intro m k h
    simp only [List.foldl_cons]
    apply ih
    by_cases hf : f x = true
    · simp only [hf, if_true]
      rw [lookupA_removeA]
      split <;> simp [h]
    · simp [hf, h]

theorem lookupA_foldl_cacheDel_mem (f : String → Bool) :
    ∀ (batch : List String) (m : DocMap) (id : String), id ∈ batch → f id = true →
      lookupA (batch.foldl
        (fun m2 id2 => if f id2 then removeA m2 (getCacheKey id2) else m2) m)
        (getCacheKey id) = none := by
  intro batch
  induction batch with
  | nil => intro m id h; cases h
  | cons x xs ih =>
    intro m id h hf
    simp only [List.foldl_cons]
    rcases List.mem_cons.mp h with h1 | h1
    · subst h1
      apply lookupA_foldl_cacheDel_none
      simp [hf, lookupA_removeA]
    · exact ih _ _ h1 hf

/-- Sequence of sequential `UpdateArticle` calls in which every engine write
and every cache write succeeds (so each call returns `.ok ()` and the state
and the in-memory article are threaded to the next call); `times` lists the
`time.Now()` instants, one per update. -/
def runUpdates : List Nat → SystemState → Article →
    Except ArticleError Unit × SystemState × Article
  | [], st, a => (.ok (), st, a)
  | t :: rest, st, a =>
    runUpdates rest (UpdateArticle true true t st a).2.1 (UpdateArticle true true t st a).2.2

theorem wrapI64_eq_self (n : Int) (h1 : -9223372036854775808 ≤ n)
    (h2 : n ≤ 9223372036854775807) : wrapI64 n = n := by
  unfold wrapI64
  omega

theorem wrapI64_add_left (x y : Int) : wrapI64 (wrapI64 x + y) = wrapI64 (x + y) := by
  unfold wrapI64
  omega

theorem runUpdates_version (times : List Nat) (st : SystemState) (a : Article)
    (h : wrapI64 a.version = a.version) :
    (runUpdates times st a).2.2.version = wrapI64 (a.version + times.length) := by
  induction times generalizing st a with
  | nil => simpa [runUpdates] using h.symm
  | cons t rest ih =>
    simp only [runUpdates]
    rw [ih _ _ (by simp [UpdateArticle]; unfold wrapI64; omega)]
    have h2 : (UpdateArticle true true t st a).2.2.version = wrapI64 (a.version + 1) := by
      simp [UpdateArticle]
    rw [h2, wrapI64_add_left]
    congr 1
    push_cast [List.length_cons]
    ring

theorem runUpdates_id (times : List Nat) (st : SystemState) (a : Article) :
    (runUpdates times st a).2.2.id = a.id := by
  induction times generalizing st a with
  | nil => simp [runUpdates]
  | cons t rest ih => simp [runUpdates, UpdateArticle, ih]

theorem runUpdates_result (times : List Nat) (st : SystemState) (a : Article) :
    (runUpdates times st a).1 = .ok () := by
  induction times generalizing st a with
  | nil => simp [runUpdates]
  | cons t rest ih => simp [runUpdates, ih]

theorem runUpdates_stored (times : List Nat) (st : SystemState) (a : Article)
    (h : lookupA st.es a.id = some a) :
    lookupA (runUpdates times st a).2.1.es ((runUpdates times st a).2.2.id) =
      some ((runUpdates times st a).2.2) := by
  induction times generalizing st a with
  | nil => simpa [runUpdates] using h
  | cons t rest ih =>
    simp only [runUpdates]
    exact ih _ _ (by simp [UpdateArticle, lookupA_insertA_self])

/-- Concrete data used by the evaluation witnesses below. -/
def demoArticle : Article :=
  ⟨"a1", 0, 0, "Go concurrency", "intro", "body", 0, 0, 0, 0, 7, "alice", "tech", 1, "cover", 0⟩

/-- Empty engine and empty cache. -/
def emptyState : SystemState := ⟨[], []⟩

/-- A state whose cache already holds `demoArticle` under its cache key. -/
def cachedState : SystemState := ⟨[], [("article:a1", demoArticle)]⟩

/-- C1 counterexample: `Version` is a Go `int64` and `article.Version++`
wraps at 2^63, so after a successful create followed by N = 2^63 - 1
sequential successful updates the version is -2^63, not 1 + N — the claim
fails at that (astronomically large but well-defined) N. -/
theorem C1_counterexample :
    (runUpdates (List.replicate 9223372036854775807 0)
        (CreateArticle true true true 0 emptyState demoArticle).2.1
        (CreateArticle true true true 0 emptyState demoArticle).2.2).2.2.version =
      -9223372036854775808 ∧
    (runUpdates (List.replicate 9223372036854775807 0)
        (CreateArticle true true true 0 emptyState demoArticle).2.1
        (CreateArticle true true true 0 emptyState demoArticle).2.2).2.2.version ≠
      1 + ((List.replicate 9223372036854775807 (0 : Nat)).length : Int) := by
  have h := runUpdates_version (List.replicate 9223372036854775807 0)
    (CreateArticle true true true 0 emptyState demoArticle).2.1
    (CreateArticle true true true 0 emptyState demoArticle).2.2 (by decide)
  rw [List.length_replicate] at h
  refine ⟨by rw [h]; decide, ?_⟩
  rw [h, List.length_replicate]
  decide

/-- C1 (amended): `CreateArticle` stamps the stored article with version
exactly 1; every `UpdateArticle` call sets the version to the int64-wrapped
value of `version + 1`, which is exactly `version + 1` whenever `version + 1`
fits in the int64 range; hence after a successful create followed by N
sequential successful updates of the same article the version equals 1 + N
for every N with 1 + N ≤ 2^63 - 1 — that is, for every N an int64 version
counter can realize — both in the in-memory article and in the engine
document. -/
theorem C1_version_stamping
    (eok : Bool) (now : Nat) (st : SystemState) (a : Article) (times : List Nat)
    (h1 : ArticleExists eok st a.id = .ok false)
    (hN : (times.length : Int) ≤ 9223372036854775806) :
    (CreateArticle eok true true now st a).1 = .ok () ∧
    (CreateArticle eok true true now st a).2.2.version = 1 ∧
    lookupA (CreateArticle eok true true now st a).2.1.es a.id =
      some ((CreateArticle eok true true now st a).2.2) ∧
    (∀ (uok cok : Bool) (t : Nat) (st2 : SystemState) (b : Article),
      (UpdateArticle uok cok t st2 b).2.2.version = wrapI64 (b.version + 1)) ∧
    (∀ (uok cok : Bool) (t : Nat) (st2 : SystemState) (b : Article),
      -9223372036854775808 ≤ b.version → b.version ≤ 9223372036854775806 →
      (UpdateArticle uok cok t st2 b).2.2.version = b.version + 1) ∧
    (runUpdates times (CreateArticle eok true true now st a).2.1
        (CreateArticle eok true true now st a).2.2).2.2.version = 1 + times.length ∧
    lookupA (runUpdates times (CreateArticle eok true true now st a).2.1
        (CreateArticle eok true true now st a).2.2).2.1.es
      ((runUpdates times (CreateArticle eok true true now st a).2.1
        (CreateArticle eok true true now st a).2.2).2.2.id) =
      some ((runUpdates times (CreateArticle eok true true now st a).2.1
        (CreateArticle eok true true now st a).2.2).2.2) := by
  have hred : CreateArticle eok true true now st a =
      (.ok (),
        ⟨insertA st.es a.id { a with createdAt := now, updatedAt := now, version := 1 },
         insertA st.cache (getCacheKey a.id)
           { a with createdAt := now, updatedAt := now, version := 1 }⟩,
        { a with createdAt := now, updatedAt := now, version := 1 }) := by
    simp [CreateArticle, h1]
  have hv : ∀ (uok cok : Bool) (t : Nat) (st2 : SystemState) (b : Article),
      (UpdateArticle uok cok t st2 b).2.2.version = wrapI64 (b.version + 1) := by
    intro uok cok t st2 b
    cases uok <;> cases cok <;> simp [UpdateArticle]
  refine ⟨by simp [hred], by simp [hred], ?_, hv, ?_, ?_, ?_⟩
  · rw [hred]
    exact lookupA_insertA_self ..
  · intro uok cok t st2 b hlo hhi
    rw [hv]
    exact wrapI64_eq_self _ (by omega) (by omega)
  · rw [hred]
    rw [runUpdates_version _ _ _ (wrapI64_eq_self 1 (by norm_num) (by norm_num))]
    show wrapI64 (1 + (times.length : Int)) = 1 + times.length
    exact wrapI64_eq_self _ (by omega) (by omega)
  · rw [hred]
    exact runUpdates_stored _ _ _ (lookupA_insertA_self ..)

/-- Witness for C1: on the empty store, create `demoArticle` at time 3 and
apply three successful updates; the existence check passes, 3 is far below
the int64 overflow bound, and the final version evaluates to 1 + 3. -/
theorem C1_version_stamping_witness :
    ArticleExists true emptyState demoArticle.id = .ok false ∧
    (([4, 5, 6] : List Nat).length : Int) ≤ 9223372036854775806 ∧
    (runUpdates [4, 5, 6] (CreateArticle true true true 3 emptyState demoArticle).2.1
        (CreateArticle true true true 3 emptyState demoArticle).2.2).2.2.version =
      1 + ([4, 5, 6] : List Nat).length :=
  ⟨rfl, by decide,
    (C1_version_stamping true 3 emptyState demoArticle [4, 5, 6] rfl
      (by decide)).2.2.2.2.2.1⟩

/-- C2 counterexample: with the engine write succeeding and the cache set
failing, `CreateArticle` and `UpdateArticle` both return the cache error to
the caller instead of success — the code ends both functions with
`return s.setCache(...)`, so the cache failure is NOT downgraded to a
warning on these two paths. -/
theorem C2_counterexample :
    (CreateArticle true true false 0 emptyState demoArticle).1 =
      .error .cacheSetFailed ∧
    (CreateArticle true true false 0 emptyState demoArticle).1 ≠ .ok () ∧
    (UpdateArticle true false 0 emptyState demoArticle).1 =
      .error .cacheSetFailed ∧
    (UpdateArticle true false 0 emptyState demoArticle).1 ≠ .ok () :=
  ⟨rfl, fun h => Except.noConfusion h, rfl, fun h => Except.noConfusion h⟩

/-- C2 (amended): after the engine write succeeds, `CreateArticle` and
`UpdateArticle` return the result of the final cache set — the call succeeds
if and only if the cache set succeeds, and a cache-set failure is returned to
the caller as the error of the call rather than being downgraded to a
warning. -/
theorem C2_cache_error_returned
    (eok cok : Bool) (now : Nat) (st : SystemState) (a : Article)
    (h1 : ArticleExists eok st a.id = .ok false) :
    ((CreateArticle eok true cok now st a).1 = .ok () ↔ cok = true) ∧
    (cok = false →
      (CreateArticle eok true cok now st a).1 = .error .cacheSetFailed) ∧
    ((UpdateArticle true cok now st a).1 = .ok () ↔ cok = true) ∧
    (cok = false →
      (UpdateArticle true cok now st a).1 = .error .cacheSetFailed) := by
  cases cok <;> simp [CreateArticle, UpdateArticle, h1]

/-- Witness for C2 (amended): on the empty store with a failing cache set,
`CreateArticle` returns the cache error. -/
theorem C2_cache_error_returned_witness :
    ArticleExists true emptyState demoArticle.id = .ok false ∧
    (CreateArticle true true false 0 emptyState demoArticle).1 =
      .error .cacheSetFailed :=
  ⟨rfl, (C2_cache_error_returned true false 0 emptyState demoArticle rfl).2.1 rfl⟩

/-- C6: `CreateArticle` on an id that already exists — cache hit, or engine
existence hit — returns the already-exists error, leaves both stores exactly
as they were, and leaves the timestamps and version of the input article
unmodified (the Go code mutates the article only after the existence check
passes). -/
theorem C6_create_on_existing_id_no_write
    (eok iok cok : Bool) (now : Nat) (st : SystemState) (a : Article)
    (h : (lookupA st.cache (getCacheKey a.id)).isSome = true ∨
         (eok = true ∧ (lookupA st.es a.id).isSome = true)) :
    CreateArticle eok iok cok now st a = (.error .alreadyExists, st, a) := by
  have hex : ArticleExists eok st a.id = .ok true := by
    unfold ArticleExists
    cases hc : lookupA st.cache (getCacheKey a.id) with
    | some x => rfl
    | none =>
      rcases h with h | ⟨he, h⟩
      · rw [hc] at h
        simp at h
      · subst he
        simp [h]
  simp [CreateArticle, hex]

/-- Witness for C6: with `demoArticle` already cached, creating it again
fails with the already-exists error and changes nothing. -/
theorem C6_create_on_existing_id_no_write_witness :
    (lookupA cachedState.cache (getCacheKey demoArticle.id)).isSome = true ∧
    CreateArticle true true true 9 cachedState demoArticle =
      (.error .alreadyExists, cachedState, demoArticle) :=
  ⟨rfl,
    C6_create_on_existing_id_no_write true true true 9 cachedState demoArticle (Or.inl rfl)⟩

/-- C3: on a cache miss, `GetArticle` writes the fetched article into the
cache if and only if its view count strictly exceeds 100 — the fetched
article is returned either way, the cache gains the entry exactly when
`lookCount > 100`, and is left untouched otherwise. -/
theorem C3_cache_on_read_boundary (st : SystemState) (id : String) (a : Article)
    (hmiss : lookupA st.cache (getCacheKey id) = none)
    (hes : lookupA st.es id = some a) :
    (GetArticle true st id).result = .ok a ∧
    (GetArticle true st id).state.cache =
      (if 100 < a.lookCount then insertA st.cache (getCacheKey id) a else st.cache) ∧
    lookupA (GetArticle true st id).state.cache (getCacheKey id) =
      (if 100 < a.lookCount then some a else none) := by
  by_cases hpop : 100 < a.lookCount
  · simp [GetArticle, hmiss, hes, hpop, lookupA_insertA_self]
  · simp [GetArticle, hmiss, hes, hpop]

/-- Witness for C3, at both sides of the popularity boundary: an article with
view count exactly 100 is not cached after the read, one with view count 101
is. -/
theorem C3_cache_on_read_boundary_witness :
    (lookupA (⟨[("b1", { demoArticle with id := "b1", lookCount := 100 })], []⟩ :
        SystemState).cache (getCacheKey "b1") = none ∧
      lookupA (GetArticle true
          ⟨[("b1", { demoArticle with id := "b1", lookCount := 100 })], []⟩
          "b1").state.cache (getCacheKey "b1") = none) ∧
    (lookupA (⟨[("b2", { demoArticle with id := "b2", lookCount := 101 })], []⟩ :
        SystemState).cache (getCacheKey "b2") = none ∧
      lookupA (GetArticle true
          ⟨[("b2", { demoArticle with id := "b2", lookCount := 101 })], []⟩
          "b2").state.cache (getCacheKey "b2") =
        some { demoArticle with id := "b2", lookCount := 101 }) := by
  constructor
  · refine ⟨rfl, ?_⟩
    have h := (C3_cache_on_read_boundary
      ⟨[("b1", { demoArticle with id := "b1", lookCount := 100 })], []⟩
      "b1" { demoArticle with id := "b1", lookCount := 100 } rfl rfl).2.2
    simpa using h
  · refine ⟨rfl, ?_⟩
    have h := (C3_cache_on_read_boundary
      ⟨[("b2", { demoArticle with id := "b2", lookCount := 101 })], []⟩
      "b2" { demoArticle with id := "b2", lookCount := 101 } rfl rfl).2.2
    simpa using h

/-- C10: `GetArticle` spawns the detached view-count increment only on a
cache hit.  On a cache miss the read is served from the engine, no increment
goroutine is spawned, the engine state is untouched, and the cache either
stays unchanged or gains exactly the fetched article (with its fetched view
count) — no view-count increment is applied anywhere.  On a cache hit the
increment goroutine is spawned. -/
theorem C10_increment_only_on_cache_hit (cok : Bool) (st : SystemState) (id : String)
    (hmiss : lookupA st.cache (getCacheKey id) = none) :
    (GetArticle cok st id).lookCountIncrementSpawned = false ∧
    (GetArticle cok st id).state.es = st.es ∧
    (∀ a, lookupA st.es id = some a →
      (GetArticle cok st id).state.cache = st.cache ∨
      (GetArticle cok st id).state.cache = insertA st.cache (getCacheKey id) a) ∧
    (lookupA st.es id = none → (GetArticle cok st id).state = st) ∧
    (∀ (st2 : SystemState) (id2 : String) (a2 : Article),
      lookupA st2.cache (getCacheKey id2) = some a2 →
      (GetArticle cok st2 id2).lookCountIncrementSpawned = true) := by
  refine ⟨?_, ?_, ?_, ?_, ?_⟩
  · cases hes : lookupA st.es id with
    | none => simp [GetArticle, hmiss, hes]
    | some a =>
      by_cases hpop : 100 < a.lookCount <;> cases cok <;>
        simp [GetArticle, hmiss, hes, hpop]
  · cases hes : lookupA st.es id with
    | none => simp [GetArticle, hmiss, hes]
    | some a =>
      by_cases hpop : 100 < a.lookCount <;> cases cok <;>
        simp [GetArticle, hmiss, hes, hpop]
  · intro a hes
    by_cases hpop : 100 < a.lookCount <;> cases cok <;>
      simp [GetArticle, hmiss, hes, hpop]
  · intro hes
    simp [GetArticle, hmiss, hes]
  · intro st2 id2 a2 hhit
    simp [GetArticle, hhit]

/-- Witness for C10: a read of an uncached id from a one-document engine
spawns no increment, and a read of the cached `demoArticle` does. -/
theorem C10_increment_only_on_cache_hit_witness :
    lookupA emptyState.cache (getCacheKey "a1") = none ∧
    (GetArticle true emptyState "a1").lookCountIncrementSpawned = false ∧
    (GetArticle true cachedState "a1").lookCountIncrementSpawned = true := by
  have h := C10_increment_only_on_cache_hit true emptyState "a1" rfl
  exact ⟨rfl, h.1, h.2.2.2.2 cachedState "a1" demoArticle rfl⟩

/-- Field-level frame relation: `a` and `b` agree on every `Article` field
except possibly `lookCount`. -/
def sameExceptLookCount (a b : Article) : Prop :=
  a.id = b.id ∧ a.createdAt = b.createdAt ∧ a.updatedAt = b.updatedAt ∧
  a.title = b.title ∧ a.abstract = b.abstract ∧ a.content = b.content ∧
  a.commentCount = b.commentCount ∧ a.diggCount = b.diggCount ∧
  a.collectsCount = b.collectsCount ∧ a.userId = b.userId ∧
  a.userName = b.userName ∧ a.category = b.category ∧
  a.coverId = b.coverId ∧ a.coverUrl = b.coverUrl ∧ a.version = b.version

instance (a b : Article) : Decidable (sameExceptLookCount a b) := by
  unfold sameExceptLookCount
  infer_instance

/-- C9: the view-counter path touches only the view count.  When the engine
document exists and the script call succeeds, `incrementLookCount` replaces
the document by `incScript doc`, which bumps `look_count` and agrees with
`doc` on `version`, `updated_at` and every other field; engine documents
under other ids are untouched.  The best-effort cache mirror, when a cache
entry exists and the cache set succeeds, replaces it by a record agreeing
with the old one on every field except `lookCount`, leaves other cache keys
untouched, and on a failing or impossible mirror the cache is unchanged. -/
theorem C9_increment_touches_only_look_count
    (cok : Bool) (st : SystemState) (id : String) (doc : Article)
    (hes : lookupA st.es id = some doc) :
    (incrementLookCount true cok st id).1 = .ok () ∧
    lookupA (incrementLookCount true cok st id).2.es id = some (incScript doc) ∧
    sameExceptLookCount doc (incScript doc) ∧
    (incScript doc).lookCount = wrap64 (doc.lookCount + 1) ∧
    (∀ k, k ≠ id → lookupA (incrementLookCount true cok st id).2.es k = lookupA st.es k) ∧
    (lookupA st.cache (getCacheKey id) = none →
      (incrementLookCount true cok st id).2.cache = st.cache) ∧
    (∀ cached, lookupA st.cache (getCacheKey id) = some cached → cok = true →
      lookupA (incrementLookCount true cok st id).2.cache (getCacheKey id) =
        some { cached with lookCount := wrap64 (cached.lookCount + 1) } ∧
      sameExceptLookCount cached { cached with lookCount := wrap64 (cached.lookCount + 1) } ∧
      (∀ k, k ≠ getCacheKey id →
        lookupA (incrementLookCount true cok st id).2.cache k = lookupA st.cache k)) ∧
    (∀ cached, lookupA st.cache (getCacheKey id) = some cached → cok = false →
      (incrementLookCount true cok st id).2.cache = st.cache) := by
  refine ⟨?_, ?_, ?_, rfl, ?_, ?_, ?_, ?_⟩
  · cases hc : lookupA st.cache (getCacheKey id) <;> cases cok <;>
      simp [incrementLookCount, hes, hc]
  · cases hc : lookupA st.cache (getCacheKey id) <;> cases cok <;>
      simp [incrementLookCount, hes, hc, lookupA_insertA_self]
  · simp [sameExceptLookCount, incScript]
  · intro k hk
    cases hc : lookupA st.cache (getCacheKey id) <;> cases cok <;>
      simp [incrementLookCount, hes, hc, lookupA_insertA_ne _ _ _ _ hk]
  · intro hc
    cases cok <;> simp [incrementLookCount, hes, hc]
  · intro cached hc hcok
    subst hcok
    refine ⟨?_, ?_, ?_⟩
    · simp [incrementLookCount, hes, hc, lookupA_insertA_self]
    · simp [sameExceptLookCount]
    · intro k hk
      simp [incrementLookCount, hes, hc, lookupA_insertA_ne _ _ _ _ hk]
  · intro cached hc hcok
    subst hcok
    simp [incrementLookCount, hes, hc]

/-- Witness for C9: incrementing the look count of the engine document `"a1"`
while it is also cached updates both records and leaves the `version` and
`updated_at` fields (and every other field) of each unchanged. -/
theorem C9_increment_touches_only_look_count_witness :
    lookupA (⟨[("a1", demoArticle)], [("article:a1", demoArticle)]⟩ :
      SystemState).es "a1" = some demoArticle ∧
    lookupA (incrementLookCount true true
        ⟨[("a1", demoArticle)], [("article:a1", demoArticle)]⟩ "a1").2.es "a1" =
      some (incScript demoArticle) ∧
    sameExceptLookCount demoArticle (incScript demoArticle) := by
  have h := C9_increment_touches_only_look_count true
    ⟨[("a1", demoArticle)], [("article:a1", demoArticle)]⟩ "a1" demoArticle rfl
  exact ⟨rfl, h.2.1, h.2.2.1⟩

/-- C7 counterexample: Go `int` arithmetic wraps at 2^63, so at the positive,
realizable inputs page = 2^62 and page_size = 4 the program computes the
engine offset -4 — not the mathematical (page - 1) * page_size, and not
non-negative — falsifying the claim as stated. -/
theorem C7_counterexample :
    (1 : Int) ≤ 4611686018427387904 ∧ (1 : Int) ≤ 4 ∧
    (buildSearchRequest ⟨⟨"", 4611686018427387904, 4⟩, "", "", ""⟩).fromOffset = -4 ∧
    (buildSearchRequest ⟨⟨"", 4611686018427387904, 4⟩, "", "", ""⟩).fromOffset ≠
      ((4611686018427387904 : Int) - 1) * 4 ∧
    ¬ 0 ≤ (buildSearchRequest ⟨⟨"", 4611686018427387904, 4⟩, "", "", ""⟩).fromOffset := by
  refine ⟨?_, ?_, ?_, ?_, ?_⟩ <;> decide

/-- C7 (amended): for positive `page` and `page_size` in the Go int range,
the engine request built by `SearchArticles` uses the zero-based offset
`wrapI64 ((page - 1) * page_size)` and requests exactly `page_size` hits;
whenever the product `(page - 1) * page_size` itself fits in the int64 range
(every realistic pagination input), the offset is exactly
`(page - 1) * page_size` and in particular non-negative. -/
theorem C7_pagination (params : SearchParams)
    (hp : 1 ≤ params.pageInfo.page)
    (hpb : params.pageInfo.page ≤ 9223372036854775807)
    (hs : 1 ≤ params.pageInfo.pageSize)
    (hb : (params.pageInfo.page - 1) * params.pageInfo.pageSize ≤ 9223372036854775807) :
    (buildSearchRequest params).fromOffset =
      (params.pageInfo.page - 1) * params.pageInfo.pageSize ∧
    (buildSearchRequest params).size = params.pageInfo.pageSize ∧
    0 ≤ (buildSearchRequest params).fromOffset := by
  have h0 : 0 ≤ (params.pageInfo.page - 1) * params.pageInfo.pageSize :=
    mul_nonneg (by omega) (by omega)
  have h1 : (buildSearchRequest params).fromOffset =
      (params.pageInfo.page - 1) * params.pageInfo.pageSize := by
    show wrapI64 (wrapI64 (params.pageInfo.page - 1) * params.pageInfo.pageSize) = _
    rw [wrapI64_eq_self (params.pageInfo.page - 1) (by omega) (by omega)]
    exact wrapI64_eq_self _ (by omega) (by omega)
  exact ⟨h1, rfl, by rw [h1]; exact h0⟩

/-- Demo search request: page 3 of size 10, sorted by creation date. -/
def demoParams : SearchParams :=
  ⟨⟨"concurrency", 3, 10⟩, "tech", "created_at", ""⟩

/-- Witness for C7: page 3 with page size 10 (both comfortably inside the
int64 range) yields engine offset 20 and hit count 10. -/
theorem C7_pagination_witness :
    (1 : Int) ≤ 3 ∧ ((3 : Int) - 1) * 10 ≤ 9223372036854775807 ∧
    (buildSearchRequest demoParams).fromOffset = 20 ∧
    (buildSearchRequest demoParams).size = 10 := by
  have h := C7_pagination demoParams (by decide) (by decide) (by decide) (by decide)
  exact ⟨by decide, by decide, by rw [h.1]; rfl, h.2.1⟩

/-- Helper: splitting the colon out of an appended sort suffix. -/
theorem append_colon_suffix (s t : String) : s ++ ":" ++ t = s ++ (":" ++ t) := by
  rw [String.append_assoc]

/-- Helper: appending two different suffixes to the same string yields
different strings. -/
theorem append_desc_ne_append_asc (s : String) : s ++ ":desc" ≠ s ++ ":asc" := by
  intro h
  have h2 := congrArg String.data h
  rw [String.data_append, String.data_append] at h2
  have h3 := List.append_cancel_left h2
  simp at h3

/-- C8: when `SortField` is non-empty, the sort clause is
`SortField:asc` exactly when `SortOrder` is the string "asc", and is
`SortField:desc` for every other value of `SortOrder` (including the empty
string); when `SortField` is empty, no sort clause is added. -/
theorem C8_sort_direction (params : SearchParams) :
    (params.sortField = "" → (buildSearchRequest params).sortClause = none) ∧
    (params.sortField ≠ "" →
      (((buildSearchRequest params).sortClause =
          some (params.sortField ++ ":asc")) ↔ params.sortOrder = "asc") ∧
      (params.sortOrder ≠ "asc" →
        (buildSearchRequest params).sortClause =
          some (params.sortField ++ ":desc"))) := by
  constructor
  · intro h
    simp [buildSearchRequest, h]
  · intro h
    by_cases ho : params.sortOrder = "asc"
    · simp [buildSearchRequest, h, ho]
      rw [append_colon_suffix]
      rfl
    · have hd : (buildSearchRequest params).sortClause =
          some (params.sortField ++ ":desc") := by
        simp [buildSearchRequest, h, ho]
        rw [append_colon_suffix]
        rfl
      refine ⟨?_, fun _ => hd⟩
      rw [hd]
      constructor
      · intro hcontra
        exact absurd (Option.some.inj hcontra)
          (append_desc_ne_append_asc params.sortField)
      · intro hcontra
        exact absurd hcontra ho

/-- Witness for C8: sorting by `created_at` with the empty sort order sorts
descending, with "asc" sorts ascending, and an empty sort field adds no sort
clause. -/
theorem C8_sort_direction_witness :
    (buildSearchRequest demoParams).sortClause = some "created_at:desc" ∧
    (buildSearchRequest { demoParams with sortOrder := "asc" }).sortClause =
      some "created_at:asc" ∧
    (buildSearchRequest { demoParams with sortField := "" }).sortClause = none := by
  refine ⟨?_, ?_, ?_⟩
  · have h := ((C8_sort_direction demoParams).2 (by decide)).2 (by decide)
    simpa using h
  · have h := ((C8_sort_direction { demoParams with sortOrder := "asc" }).2
      (by decide)).1.mpr rfl
    simpa using h
  · exact (C8_sort_direction { demoParams with sortField := "" }).1 rfl

/-! Facts about the batching loop of `DeleteArticles`. -/

theorem chunkBatches_nil : chunkBatches [] = [] := by
  rw [chunkBatches]
  simp

theorem chunkBatches_cons (ids : List String) (h : ids ≠ []) :
    chunkBatches ids = ids.take batchSize :: chunkBatches (ids.drop batchSize) := by
  rw [chunkBatches]
  simp [h]

theorem chunkBatches_flatten (ids : List String) : (chunkBatches ids).flatten = ids := by
  induction ids using chunkBatches.induct with
  | case1 => rw [chunkBatches_nil]; rfl
  | case2 ids h ih =>
    rw [chunkBatches_cons ids h]
    simp [ih]

theorem chunkBatches_length (ids : List String) :
    (chunkBatches ids).length = (ids.length + (batchSize - 1)) / batchSize := by
  induction ids using chunkBatches.induct with
  | case1 => rw [chunkBatches_nil]; rfl
  | case2 ids h ih =>
    rw [chunkBatches_cons ids h]
    have hlen : ids.length ≠ 0 := by simpa using h
    simp only [List.length_cons, List.length_drop, batchSize] at ih ⊢
    omega

theorem chunkBatches_mem (ids : List String) :
    ∀ b ∈ chunkBatches ids, b.length ≤ batchSize ∧ b ≠ [] := by
  induction ids using chunkBatches.induct with
  | case1 => rw [chunkBatches_nil]; intro b hb; cases hb
  | case2 ids h ih =>
    rw [chunkBatches_cons ids h]
    intro b hb
    rcases List.mem_cons.mp hb with hb1 | hb1
    · subst hb1
      constructor
      · exact List.length_take_le batchSize ids
      · simp [List.take_eq_nil_iff, batchSize, h]
    · exact ih b hb1

theorem chunkBatches_single (l : List String) (h1 : l ≠ [])
    (h2 : l.length ≤ batchSize) : chunkBatches l = [l] := by
  rw [chunkBatches_cons l h1, List.take_of_length_le h2,
    List.drop_eq_nil_of_le h2, chunkBatches_nil]

/-- C4: `DeleteArticles` partitions the identifier list into consecutive
batches of at most 1000 ids each — concatenating the batches in order gives
back the input, every batch is non-empty with at most `batchSize = 1000`
entries, the number of batches is the ceiling `(n + 999) / 1000` of `n/1000`
(so 1000 ids make 1 batch and 1001 ids make 2), and the bulk request built
for a batch holds exactly one delete operation per identifier of the batch,
in order. -/
theorem C4_delete_batching (ids : List String) :
    (chunkBatches ids).flatten = ids ∧
    (∀ b ∈ chunkBatches ids, b.length ≤ batchSize ∧ b ≠ []) ∧
    (chunkBatches ids).length = (ids.length + (batchSize - 1)) / batchSize ∧
    (∀ b ∈ chunkBatches ids,
      (buildBulkRequest b).map DeleteOperation.id = b ∧
      (buildBulkRequest b).length = b.length) := by
  refine ⟨chunkBatches_flatten ids, chunkBatches_mem ids, chunkBatches_length ids, ?_⟩
  intro b _
  constructor
  · simp only [buildBulkRequest, List.map_map]
    exact List.map_id b
  · simp [buildBulkRequest]

/-- Witness for C4: 1000 identifiers give exactly 1 batch, 1001 give exactly
2, and on a two-element list the single batch carries one delete operation
per id. -/
theorem C4_delete_batching_witness :
    (chunkBatches (List.replicate 1000 "x")).length = 1 ∧
    (chunkBatches (List.replicate 1001 "x")).length = 2 ∧
    (chunkBatches ["a", "b"]).flatten = ["a", "b"] := by
  have h1 := (C4_delete_batching (List.replicate 1000 "x")).2.2.1
  have h2 := (C4_delete_batching (List.replicate 1001 "x")).2.2.1
  rw [List.length_replicate] at h1 h2
  refine ⟨by rw [h1]; decide, by rw [h2]; decide,
    (C4_delete_batching ["a", "b"]).1⟩

/-! Facts about the execution of the spawned batches. -/

theorem runBatch_es_none (o : BulkOutcome) (f : String → Bool) (batch : List String)
    (st : SystemState) (k : String) (h : lookupA st.es k = none) :
    lookupA (runBatch o f batch st).2.es k = none := by
  cases o with
  | transportError => simpa [runBatch] using h
  | respErrors => simpa [runBatch] using h
  | success =>
    simp only [runBatch]
    exact lookupA_foldl_removeA_none _ _ _ h

theorem runBatch_cache_none (o : BulkOutcome) (f : String → Bool) (batch : List String)
    (st : SystemState) (k : String) (h : lookupA st.cache k = none) :
    lookupA (runBatch o f batch st).2.cache k = none := by
  cases o with
  | transportError => simpa [runBatch] using h
  | respErrors => simpa [runBatch] using h
  | success =>
    simp only [runBatch]
    exact lookupA_foldl_cacheDel_none f _ _ _ h

theorem runBatches_es_none (o : Nat → BulkOutcome) (f : String → Bool) :
    ∀ (bs : List (List String)) (i : Nat) (st : SystemState) (k : String),
      lookupA st.es k = none →
      lookupA (runBatches o f i bs st).2.es k = none := by
  intro bs
  induction bs with
  | nil => intro i st k h; simpa [runBatches] using h
  | cons b rest ih =>
    intro i st k h
    simp only [runBatches]
    exact ih _ _ _ (runBatch_es_none _ _ _ _ _ h)

theorem runBatches_cache_none (o : Nat → BulkOutcome) (f : String → Bool) :
    ∀ (bs : List (List String)) (i : Nat) (st : SystemState) (k : String),
      lookupA st.cache k = none →
      lookupA (runBatches o f i bs st).2.cache k = none := by
  intro bs
  induction bs with
  | nil => intro i st k h; simpa [runBatches] using h
  | cons b rest ih =>
    intro i st k h
    simp only [runBatches]
    exact ih _ _ _ (runBatch_cache_none _ _ _ _ _ h)

theorem runBatches_ok_iff (o : Nat → BulkOutcome) (f : String → Bool) :
    ∀ (bs : List (List String)) (i : Nat) (st : SystemState),
      ((runBatches o f i bs st).1 = .ok () ↔
        ∀ j, j < bs.length → o (i + j) = .success) := by
  intro bs
  induction bs with
  | nil => intro i st; simp [runBatches]
  | cons b rest ih =>
    intro i st
    cases ho : o i with
    | transportError =>
      have h1 : (runBatches o f i (b :: rest) st).1 = .error .bulkDeleteFailed := by
        simp [runBatches, runBatch, ho]
      rw [h1]
      constructor
      · intro hcontra
        exact Except.noConfusion hcontra
      · intro hall
        have h2 := hall 0 (by simp)
        rw [Nat.add_zero, ho] at h2
        exact BulkOutcome.noConfusion h2
    | respErrors =>
      have h1 : (runBatches o f i (b :: rest) st).1 = .error .bulkDeleteErrors := by
        simp [runBatches, runBatch, ho]
      rw [h1]
      constructor
      · intro hcontra
        exact Except.noConfusion hcontra
      · intro hall
        have h2 := hall 0 (by simp)
        rw [Nat.add_zero, ho] at h2
        exact BulkOutcome.noConfusion h2
    | success =>
      have h1 : (runBatches o f i (b :: rest) st).1 =
          (runBatches o f (i + 1) rest (runBatch (o i) f b st).2).1 := by
        simp only [runBatches, ho, runBatch]
      rw [h1, ih (i + 1) ((runBatch (o i) f b st).2)]
      constructor
      · intro hrest j hj
        cases j with
        | zero => rw [Nat.add_zero, ho]
        | succ j2 =>
          have hj2 : j2 < rest.length := by
            simp only [List.length_cons] at hj
            omega
          have h2 := hrest j2 hj2
          rw [show i + (j2 + 1) = i + 1 + j2 from by omega]
          exact h2
      · intro hall j hj
        have h2 := hall (j + 1) (by simp only [List.length_cons]; omega)
        rw [show i + 1 + j = i + (j + 1) from by omega]
        exact h2

theorem runBatches_fst_indep (o : Nat → BulkOutcome) (f g : String → Bool) :
    ∀ (bs : List (List String)) (i : Nat) (st st2 : SystemState),
      (runBatches o f i bs st).1 = (runBatches o g i bs st2).1 := by
  intro bs
  induction bs with
  | nil => intro i st st2; rfl
  | cons b rest ih =>
    intro i st st2
    cases ho : o i with
    | transportError => simp [runBatches, runBatch, ho]
    | respErrors => simp [runBatches, runBatch, ho]
    | success =>
      simp only [runBatches, ho, runBatch]
      exact ih _ _ _

theorem runBatches_success_es_removed (o : Nat → BulkOutcome) (f : String → Bool) :
    ∀ (bs : List (List String)) (i : Nat) (st : SystemState) (j : Nat)
      (h : j < bs.length), o (i + j) = .success →
      ∀ id ∈ bs.get ⟨j, h⟩, lookupA (runBatches o f i bs st).2.es id = none := by
  intro bs
  induction bs with
  | nil => intro i st j h; exact absurd h (by simp)
  | cons b rest ih =>
    intro i st j h hsuc id hmem
    cases j with
    | zero =>
      rw [Nat.add_zero] at hsuc
      simp only [runBatches]
      apply runBatches_es_none
      rw [hsuc]
      simp only [runBatch]
      exact lookupA_foldl_removeA_mem _ _ _ hmem
    | succ j2 =>
      have hj2 : j2 < rest.length := by
        simp only [List.length_cons] at h
        omega
      have hs2 : o (i + 1 + j2) = .success := by
        rw [show i + 1 + j2 = i + (j2 + 1) from by omega]
        exact hsuc
      simp only [runBatches]
      exact ih (i + 1) ((runBatch (o i) f b st).2) j2 hj2 hs2 id hmem

theorem runBatches_success_cache_removed (o : Nat → BulkOutcome) (f : String → Bool) :
    ∀ (bs : List (List String)) (i : Nat) (st : SystemState) (j : Nat)
      (h : j < bs.length), o (i + j) = .success →
      ∀ id ∈ bs.get ⟨j, h⟩, f id = true →
        lookupA (runBatches o f i bs st).2.cache (getCacheKey id) = none := by
  intro bs
  induction bs with
  | nil => intro i st j h; exact absurd h (by simp)
  | cons b rest ih =>
    intro i st j h hsuc id hmem hf
    cases j with
    | zero =>
      rw [Nat.add_zero] at hsuc
      simp only [runBatches]
      apply runBatches_cache_none
      rw [hsuc]
      simp only [runBatch]
      exact lookupA_foldl_cacheDel_mem f _ _ _ hmem hf
    | succ j2 =>
      have hj2 : j2 < rest.length := by
        simp only [List.length_cons] at h
        omega
      have hs2 : o (i + 1 + j2) = .success := by
        rw [show i + 1 + j2 = i + (j2 + 1) from by omega]
        exact hsuc
      simp only [runBatches]
      exact ih (i + 1) ((runBatch (o i) f b st).2) j2 hj2 hs2 id hmem hf

/-- C5: failure and cache semantics of `DeleteArticles`.  The call returns
success exactly when every batch succeeds (so a transport error or a
`resp.Errors` flag on any batch makes the whole call fail, after every
spawned batch has been accounted for); the returned error is independent of
the cache-deletion outcomes, which therefore never fail the call; the
documents of every successful batch are removed from the engine even when
other batches fail (no rollback); and on a successful batch each id whose
individual cache delete succeeds has its cache entry gone. -/
theorem C5_bulk_delete_failure_semantics (outcome : Nat → BulkOutcome)
    (f g : String → Bool) (st : SystemState) (ids : List String) :
    ((DeleteArticles outcome f st ids).1 = .ok () ↔
      ∀ j, j < (chunkBatches ids).length → outcome j = .success) ∧
    ((DeleteArticles outcome f st ids).1 = (DeleteArticles outcome g st ids).1) ∧
    (∀ (j : Nat) (h : j < (chunkBatches ids).length), outcome j = .success →
      ∀ id ∈ (chunkBatches ids).get ⟨j, h⟩,
        lookupA (DeleteArticles outcome f st ids).2.es id = none) ∧
    (∀ (j : Nat) (h : j < (chunkBatches ids).length), outcome j = .success →
      ∀ id ∈ (chunkBatches ids).get ⟨j, h⟩, f id = true →
        lookupA (DeleteArticles outcome f st ids).2.cache (getCacheKey id) = none) := by
  refine ⟨?_, ?_, ?_, ?_⟩
  · have h := runBatches_ok_iff outcome f (chunkBatches ids) 0 st
    simpa [DeleteArticles] using h
  · exact runBatches_fst_indep outcome f g (chunkBatches ids) 0 st st
  · intro j h hsuc id hmem
    exact runBatches_success_es_removed outcome f (chunkBatches ids) 0 st j h
      (by simpa using hsuc) id hmem
  · intro j h hsuc id hmem hf
    exact runBatches_success_cache_removed outcome f (chunkBatches ids) 0 st j h
      (by simpa using hsuc) id hmem hf

/-- Witness for C5: deleting the single id "a1" from a store holding it in
both the engine and the cache, with a successful bulk call and a successful
cache delete, returns success and removes both the engine document and the
cache entry. -/
theorem C5_bulk_delete_failure_semantics_witness :
    (DeleteArticles (fun _ => .success) (fun _ => true)
      ⟨[("a1", demoArticle)], [("article:a1", demoArticle)]⟩ ["a1"]).1 = .ok () ∧
    lookupA (DeleteArticles (fun _ => .success) (fun _ => true)
      ⟨[("a1", demoArticle)], [("article:a1", demoArticle)]⟩ ["a1"]).2.es "a1" = none ∧
    lookupA (DeleteArticles (fun _ => .success) (fun _ => true)
      ⟨[("a1", demoArticle)], [("article:a1", demoArticle)]⟩ ["a1"]).2.cache
      (getCacheKey "a1") = none := by
  have hch : chunkBatches ["a1"] = [["a1"]] :=
    chunkBatches_single ["a1"] (by simp) (by simp [batchSize])
  have h := C5_bulk_delete_failure_semantics (fun _ => .success) (fun _ => true)
    (fun _ => false) ⟨[("a1", demoArticle)], [("article:a1", demoArticle)]⟩ ["a1"]
  have hlen : 0 < (chunkBatches ["a1"]).length := by rw [hch]; simp
  have hmem : "a1" ∈ (chunkBatches ["a1"]).get ⟨0, hlen⟩ := by
    rw [List.get_of_eq hch ⟨0, hlen⟩]
    simp
  exact ⟨h.1.mpr (fun j hj => rfl), h.2.2.1 0 hlen rfl "a1" hmem,
    h.2.2.2 0 hlen rfl "a1" hmem rfl⟩

end BlogModel
